import Mathlib

/-!
Verification of the synpatico client (negotiation protocol, structure
registry, telemetry aggregation, access instrumentation) against a shallow
embedding of its source.  Source files embedded here:
  * src/src/core.ts          (createCore: synpaticoFetch, acceptIdHint,
                              markOrigin, handleOptimizedPacketResponse,
                              learnFromJsonResponse)
  * src/unnamed/part_003     (isPlainObject)
  * src/unnamed/part_005     (registryKey)
  * src/lib/sdk/usageWorker.ts (handleMsg, MAX_PATHS_PER_BUCKET)
  * src/unnamed/part_000     (createTrackingProxy)
-/

namespace Synpatico

/-! ## JSON values

JSON documents, with numbers restricted to integers (float semantics are
out of scope for the negotiated-shape properties verified here). -/

inductive Json where
  | null : Json
  | bool (b : Bool) : Json
  | num (n : Int) : Json
  | str (s : String) : Json
  | arr (xs : List Json) : Json
  | obj (fields : List (String × Json)) : Json

/-- Source (part_003): `isPlainObject` — object, not null, not an array. -/
def isPlainObject : Json → Bool
  | Json.obj _ => true
  | _ => false

/-- Escape a character for a JSON string literal. -/
def escChar (c : Char) : List Char :=
  if c == '"' then [ '\\', '"' ]
  else if c == '\\' then [ '\\', '\\' ]
  else if c == '\n' then [ '\\', 'n' ]
  else [c]

def escString (s : String) : String :=
  String.mk (s.data.foldr (fun c acc => escChar c ++ acc) [])

mutual

/-- Canonical serialization of a JSON value (models JSON.stringify). -/
def stringify : Json → String
  | Json.null => "null"
  | Json.bool true => "true"
  | Json.bool false => "false"
  | Json.num n => toString n
  | Json.str s => "\"" ++ escString s ++ "\""
  | Json.arr xs => "[" ++ stringifyItems xs ++ "]"
  | Json.obj fs => "\x7b" ++ stringifyFields fs ++ "\x7d"

def stringifyItems : List Json → String
  | [] => ""
  | [x] => stringify x
  | x :: rest => stringify x ++ "," ++ stringifyItems rest

def stringifyFields : List (String × Json) → String
  | [] => ""
  | [kv] => "\"" ++ escString kv.1 ++ "\":" ++ stringify kv.2
  | kv :: rest =>
      "\"" ++ escString kv.1 ++ "\":" ++ stringify kv.2 ++ "," ++ stringifyFields rest

end

/-! ## JSON parsing (models JSON.parse; fuel-based recursive descent) -/

def isWsChar (c : Char) : Bool :=
  c == ' ' || c == '\n' || c == '\t' || c == '\r'

def skipWs (cs : List Char) : List Char :=
  cs.dropWhile isWsChar

/-- Parse the tail of a JSON string literal (after the opening quote). -/
def parseStrChars : Nat → List Char → Option (List Char × List Char)
  | 0, _ => none
  | _, [] => none
  | fuel + 1, c :: rest =>
      if c == '"' then some ([], rest)
      else if c == '\\' then
        match rest with
        | [] => none
        | e :: rest2 =>
            let dec : Option Char :=
              if e == '"' then some '"'
              else if e == '\\' then some '\\'
              else if e == 'n' then some '\n'
              else none
            match dec with
            | none => none
            | some d =>
                match parseStrChars fuel rest2 with
                | none => none
                | some (s, rem) => some (d :: s, rem)
      else
        match parseStrChars fuel rest with
        | none => none
        | some (s, rem) => some (c :: s, rem)

def digitsToNat (ds : List Char) : Nat :=
  ds.foldl (fun acc c => acc * 10 + (c.toNat - 48)) 0

mutual

def parseVal : Nat → List Char → Option (Json × List Char)
  | 0, _ => none
  | fuel + 1, cs0 =>
      let cs := skipWs cs0
      match cs with
      | 'n' :: 'u' :: 'l' :: 'l' :: rest => some (Json.null, rest)
      | 't' :: 'r' :: 'u' :: 'e' :: rest => some (Json.bool true, rest)
      | 'f' :: 'a' :: 'l' :: 's' :: 'e' :: rest => some (Json.bool false, rest)
      | '"' :: rest =>
          match parseStrChars (rest.length + 1) rest with
          | none => none
          | some (s, rem) => some (Json.str (String.mk s), rem)
      | '[' :: rest =>
          let rest2 := skipWs rest
          match rest2 with
          | ']' :: rem => some (Json.arr [], rem)
          | _ =>
              match parseItems fuel rest2 with
              | none => none
              | some (xs, rem) => some (Json.arr xs, rem)
      | '\x7b' :: rest =>
          let rest2 := skipWs rest
          match rest2 with
          | '\x7d' :: rem => some (Json.obj [], rem)
          | _ =>
              match parseFields fuel rest2 with
              | none => none
              | some (fs, rem) => some (Json.obj fs, rem)
      | '-' :: rest =>
          let ds := rest.takeWhile Char.isDigit
          if ds.isEmpty then none
          else some (Json.num (-(digitsToNat ds : Int)), rest.dropWhile Char.isDigit)
      | c :: rest =>
          if c.isDigit then
            let ds := (c :: rest).takeWhile Char.isDigit
            some (Json.num (digitsToNat ds : Int), (c :: rest).dropWhile Char.isDigit)
          else none
      | [] => none

def parseItems : Nat → List Char → Option (List Json × List Char)
  | 0, _ => none
  | fuel + 1, cs =>
      match parseVal fuel cs with
      | none => none
      | some (x, rem) =>
          let rem2 := skipWs rem
          match rem2 with
          | ']' :: rem3 => some ([x], rem3)
          | ',' :: rem3 =>
              match parseItems fuel rem3 with
              | none => none
              | some (xs, rem4) => some (x :: xs, rem4)
          | _ => none

def parseFields : Nat → List Char → Option (List (String × Json) × List Char)
  | 0, _ => none
  | fuel + 1, cs0 =>
      let cs := skipWs cs0
      match cs with
      | '"' :: rest =>
          match parseStrChars (rest.length + 1) rest with
          | none => none
          | some (k, rem) =>
              let rem2 := skipWs rem
              match rem2 with
              | ':' :: rem3 =>
                  match parseVal fuel rem3 with
                  | none => none
                  | some (v, rem4) =>
                      let rem5 := skipWs rem4
                      match rem5 with
                      | '\x7d' :: rem6 => some ([(String.mk k, v)], rem6)
                      | ',' :: rem6 =>
                          match parseFields fuel rem6 with
                          | none => none
                          | some (fs, rem7) => some ((String.mk k, v) :: fs, rem7)
                      | _ => none
              | _ => none
      | _ => none

end

/-- Models JSON.parse on a whole document: result is `some v` exactly when
the text is a well-formed document (up to trailing whitespace). -/
def parseJson (s : String) : Option Json :=
  match parseVal (s.length + 1) s.data with
  | none => none
  | some (v, rem) => if (skipWs rem).isEmpty then some v else none

/-- Field access on a parsed JSON value (models `packet.structureId`):
`none` when the value is not an object or lacks the field. -/
def getField (j : Json) (k : String) : Option Json :=
  match j with
  | Json.obj fs => (fs.find? (fun kv => kv.1 == k)).map (fun kv => kv.2)
  | _ => none

/-- String-valued field access; a missing or non-string field gives `none`
(a non-string `structureId` can never match a string registry key). -/
def getStrField (j : Json) (k : String) : Option String :=
  match getField j k with
  | some (Json.str s) => some s
  | _ => none

/-! ## Association lists (model of the JS `Map`: insertion order, `set`
replaces in place, `size` = number of entries) -/

def aGet {β : Type} (l : List (String × β)) (k : String) : Option β :=
  (l.find? (fun kv => kv.1 == k)).map (fun kv => kv.2)

def aHas {β : Type} (l : List (String × β)) (k : String) : Bool :=
  (aGet l k).isSome

/-- `Map.set`: replace the entry for `k` in place, else append at the end. -/
def aSet {β : Type} (l : List (String × β)) (k : String) (v : β) : List (String × β) :=
  match l with
  | [] => [(k, v)]
  | kv :: rest => if kv.1 == k then (k, v) :: rest else kv :: aSet rest k v

/-! ## ASCII case mapping (kernel-reducible replacements for
`String.toLower` / `String.toUpper`) -/

def lowerChar (c : Char) : Char :=
  if 65 ≤ c.toNat && c.toNat ≤ 90 then Char.ofNat (c.toNat + 32) else c

def upperChar (c : Char) : Char :=
  if 97 ≤ c.toNat && c.toNat ≤ 122 then Char.ofNat (c.toNat - 32) else c

def lowerStr (s : String) : String := String.mk (s.data.map lowerChar)

def upperStr (s : String) : String := String.mk (s.data.map upperChar)

/-! ## Headers (model of the platform `Headers` object)

Header names are case-insensitive; the model keeps stored names lowercased
(as the platform presents them) and lowercases the probe name in every
operation. -/

def hNorm (hs : List (String × String)) : List (String × String) :=
  hs.map (fun kv => (lowerStr kv.1, kv.2))

def hGet (hs : List (String × String)) (k : String) : Option String :=
  (hs.find? (fun kv => kv.1 == lowerStr k)).map (fun kv => kv.2)

def hHas (hs : List (String × String)) (k : String) : Bool :=
  (hGet hs k).isSome

def hSet (hs : List (String × String)) (k v : String) : List (String × String) :=
  (hs.filter (fun kv => !(kv.1 == lowerStr k))) ++ [(lowerStr k, v)]

def hDelete (hs : List (String × String)) (k : String) : List (String × String) :=
  hs.filter (fun kv => !(kv.1 == lowerStr k))

/-! ## URL model (`new URL(s)`: throws on strings without scheme/host) -/

def leadMatch : List Char → List Char → Bool
  | [], _ => true
  | _ :: _, [] => false
  | p :: ps, c :: cs => p == c && leadMatch ps cs

/-- Split a character list at the first occurrence of `pat`, returning the
parts before and after it. -/
def breakAt (pat : List Char) : List Char → Option (List Char × List Char)
  | [] => none
  | c :: rest =>
      if leadMatch pat (c :: rest) then some ([], (c :: rest).drop pat.length)
      else match breakAt pat rest with
        | none => none
        | some (pre, post) => some (c :: pre, post)

def strContains (s pat : String) : Bool :=
  (breakAt pat.data s.data).isSome

structure UrlParts where
  origin : String
  path : String

/-- Parse an absolute URL into origin (scheme + host) and pathname; `none`
models the `new URL` constructor throwing. -/
def parseUrl (s : String) : Option UrlParts :=
  match breakAt "://".data s.data with
  | none => none
  | some (scheme, rest) =>
      if scheme.isEmpty then none
      else
        let host := rest.takeWhile (fun c => !(c == '/') && !(c == '?') && !(c == '#'))
        let tail := rest.dropWhile (fun c => !(c == '/') && !(c == '?') && !(c == '#'))
        if host.isEmpty then none
        else
          let path :=
            match tail with
            | '/' :: _ => tail.takeWhile (fun c => !(c == '?') && !(c == '#'))
            | _ => [ '/' ]
          some { origin := String.mk (scheme ++ "://".data ++ host),
                 path := String.mk path }

/-- Source (part_005): `registryKey` — origin plus pathname of the request
URL (query stripped); the raw input string when URL parsing fails. -/
def registryKey (input : String) : String :=
  match parseUrl input with
  | some u => u.origin ++ u.path
  | none => input

/-! ## Core data model (src/src/core.ts) -/

/-- Structure definition handle from the external codec: its stable id plus
the value it was derived from. -/
structure StructureDef where
  id : String
  src : Json

/-- Source (src/src/registry / part_002): `createRegistry` state, plus the
`knownSynpaticoOrigins` set held by `createCore`. -/
structure Registry where
  structures : List (String × StructureDef)
  requestToStructureId : List (String × String)
  knownOrigins : List String

def emptyRegistry : Registry :=
  { structures := [], requestToStructureId := [], knownOrigins := [] }

/-- Request options: the fields of `RequestInit` the core reads or writes. -/
structure ReqInit where
  method : Option String
  headers : List (String × String)

/-- Models the `{}` options object passed to the unoptimized reissue. -/
def emptyInit : ReqInit :=
  { method := none, headers := [] }

structure Request where
  url : String
  init : ReqInit

structure Resp where
  status : Nat
  statusText : String
  headers : List (String × String)
  body : String

/-- Lifecycle notifications observable through the hooks, as a trace. -/
inductive Ev where
  | evBeforeRequest (url : String) (wasOptimized : Bool) (hint : Option String) : Ev
  | evAfterResponse (url : String) (wasOptimized : Bool) : Ev
  | evError (phase : String) (url : Option String) : Ev
  | evPacketDecoded (url : String) (structureId : String) : Ev
  | evLearnedStructure (url : String) (structureId : String) : Ev

structure TransformCtx where
  url : String
  structureId : Option String
  wasOptimized : Bool
  data : Json

/-- The collaborators of `createCore`: the target-URL predicate, lifecycle
hooks (observer hooks appear in the event trace; `beforeRequest` /
`afterResponse` carry whether the user callback throws), and the external
codec (`createStructureDefinition`, given by its id function, and
`decode`, where `none` models a thrown exception). -/
structure Env where
  isTargetUrl : Option (String → Bool)
  enableLifecycle : Bool
  beforeRequest : Option Bool
  afterResponse : Option Bool
  transformDecoded : Option (TransformCtx → Json)
  codecId : Json → String
  decode : Json → StructureDef → Option Json

def mkDef (env : Env) (data : Json) : StructureDef :=
  { id := env.codecId data, src := data }

/-- Result of one `synpaticoFetch` call: the underlying network calls made
(in order), the response returned to the caller, the registry afterwards,
the lifecycle notifications, and whether an exception escaped the call
(`threw = true` models the returned promise rejecting — the caller gets no
response, and `response` then merely records the network response whose
processing raised). -/
structure FetchResult where
  requests : List Request
  response : Resp
  registry : Registry
  events : List Ev
  threw : Bool

def acceptHdr : String := "X-Synpatico-Accept-ID"
def agentHdr : String := "X-Synpatico-Agent"
def packetCt : String := "application/synpatico-packet+json"
def jsonCt : String := "application/json"

/-- Source (core.ts 27-38): `acceptIdHint` — the structure-id hint, present
only for an optimizable call to a known origin with a cached id for the
exact request URL string; URL-parse failure is caught and yields no hint. -/
def acceptIdHint (st : Registry) (urlString : String) (canOptimize : Bool) : Option String :=
  match parseUrl urlString with
  | none => none
  | some u =>
      if canOptimize && st.knownOrigins.contains u.origin then
        aGet st.requestToStructureId urlString
      else none

/-- Source (core.ts 40-45): `markOrigin` — add the origin to the known set;
URL-parse failure is caught and ignored. -/
def markOrigin (st : Registry) (urlString : String) : Registry :=
  match parseUrl urlString with
  | none => st
  | some u =>
      if st.knownOrigins.contains u.origin then st
      else { st with knownOrigins := st.knownOrigins ++ [u.origin] }

def fetchMethod (init : ReqInit) : String :=
  upperStr (init.method.getD "GET")

/-- The hint `synpaticoFetch` computes for a call (core.ts 140-151). -/
def hintFor (st : Registry) (url : String) (init : ReqInit) : Option String :=
  acceptIdHint st url (fetchMethod init == "GET")

/-- The enhanced request actually issued (core.ts 147-155, 172-173): the
caller's options with `Headers`-normalized headers, plus the accept-id
header when a hint is available. -/
def firstRequest (st : Registry) (url : String) (init : ReqInit) : Request :=
  { url := url,
    init := { init with
      headers :=
        match hintFor st url init with
        | some sid => hSet (hNorm init.headers) acceptHdr sid
        | none => hNorm init.headers } }

/-- Events from the guarded `beforeRequest` hook call (core.ts 157-170). -/
def preEvents (env : Env) (url : String) (wasOptimized : Bool) (hint : Option String) : List Ev :=
  if env.enableLifecycle then
    match env.beforeRequest with
    | none => []
    | some throws =>
        Ev.evBeforeRequest url wasOptimized hint ::
          (if throws then [Ev.evError "request" (some url)] else [])
  else []

/-- Events from the guarded `afterResponse` hook call (core.ts 175-186). -/
def postEvents (env : Env) (url : String) (wasOptimized : Bool) : List Ev :=
  if env.enableLifecycle then
    match env.afterResponse with
    | none => []
    | some throws =>
        Ev.evAfterResponse url wasOptimized ::
          (if throws then [Ev.evError "response" (some url)] else [])
  else []

/-- The unoptimized reissue request `originalFetch(urlString, {})` used by
the packet-path fallbacks (core.ts 57, 61, 100). -/
def reissueRequest (urlString : String) : Request :=
  { url := urlString, init := emptyInit }

/-- The value sent through the `transformDecoded` hook on the decode path
(core.ts 80-89); the decoded value itself when the hook is absent. -/
def packetOut (env : Env) (urlString : String) (sid : String) (decoded : Json) : Json :=
  match env.transformDecoded with
  | some f => f { url := urlString, structureId := some sid, wasOptimized := true,
                  data := decoded }
  | none => decoded

/-- The value sent through the `transformDecoded` hook on the learn path
(core.ts 114-122); the parsed data itself when the hook is absent. -/
def learnOut (env : Env) (urlString : String) (data : Json) : Json :=
  match env.transformDecoded with
  | some f => f { url := urlString, structureId := some (env.codecId data),
                  wasOptimized := false, data := data }
  | none => data

/-- The reconstructed response built on both the decode and learn paths
(core.ts 91-97, 124-130): original status and statusText, headers copied
with Content-Type forced to plain JSON, body re-serialized. -/
def rebuiltResponse (resp : Resp) (out : Json) : Resp :=
  { status := resp.status, statusText := resp.statusText,
    headers := hSet (hNorm resp.headers) "Content-Type" jsonCt,
    body := stringify out }

/-- The JSON value `null` (the one parsed value on which a JS property
access throws; accesses on other primitives yield undefined). -/
def isNullJson : Json → Bool
  | Json.null => true
  | _ => false

/-- Source (core.ts 47-102): `handleOptimizedPacketResponse`.  Returns the
extra network calls made, the response produced, and the notifications;
`none` models an exception escaping the function.  The body text is parsed
inside a try (line 53-58), but line 60 then evaluates `packet.structureId`
outside any try: for a packet body parsing to JSON `null` that property
access throws a TypeError which escapes to the caller, while any other
non-object packet merely yields an undefined id and falls back. -/
def handleOptimizedPacketResponse (env : Env) (net : Request → Resp) (st : Registry)
    (resp : Resp) (urlString : String) : Option (List Request × Resp × List Ev) :=
  let text := resp.body
  match parseJson text with
  | none =>
      some ([reissueRequest urlString], net (reissueRequest urlString),
        [Ev.evError "decode" (some urlString)])
  | some packet =>
      if isNullJson packet then none
      else
        let sid := getStrField packet "structureId"
        match sid.bind (fun s => aGet st.structures s) with
        | none =>
            some ([reissueRequest urlString], net (reissueRequest urlString), [])
        | some def_ =>
            match env.decode packet def_ with
            | none =>
                some ([reissueRequest urlString], net (reissueRequest urlString),
                  [Ev.evError "decode" (some urlString)])
            | some decoded0 =>
                some ([], rebuiltResponse resp (packetOut env urlString def_.id decoded0),
                  [Ev.evPacketDecoded urlString def_.id])

/-- Source (core.ts 104-136): `learnFromJsonResponse`.  Returns the registry
afterwards, the response produced, and the notifications. -/
def learnFromJsonResponse (env : Env) (st : Registry) (resp : Resp)
    (urlString : String) : Registry × Resp × List Ev :=
  match parseJson resp.body with
  | none => (st, resp, [])
  | some data =>
      if isPlainObject data then
        let def_ := mkDef env data
        let st2 := { st with
          structures := aSet st.structures def_.id def_,
          requestToStructureId := aSet st.requestToStructureId urlString def_.id }
        (st2, rebuiltResponse resp (learnOut env urlString data),
         [Ev.evLearnedStructure urlString def_.id])
      else (st, resp, [])

/-- The unhinted retry request issued on a hinted-call 409 (core.ts
188-192): the caller's options with the accept-id header removed. -/
def retryRequest (url : String) (init : ReqInit) : Request :=
  { url := url, init := { init with headers := hDelete (hNorm init.headers) acceptHdr } }

/-- Source (core.ts 138-209) after the target-URL gate: hint attachment,
call, 409 retry, classification. -/
def synpaticoFetchMain (env : Env) (net : Request → Resp) (st : Registry)
    (url : String) (init : ReqInit) : FetchResult :=
  let hint := hintFor st url init
  let wasOptimized := hint.isSome
  let r1 := firstRequest st url init
  let evs1 := preEvents env url wasOptimized hint
  let resp := net r1
  let evs2 := postEvents env url wasOptimized
  if resp.status == 409 && wasOptimized then
    { requests := [r1, retryRequest url init], response := net (retryRequest url init),
      registry := st, events := evs1 ++ evs2, threw := false }
  else if !(hHas resp.headers agentHdr) then
    { requests := [r1], response := resp, registry := st, events := evs1 ++ evs2,
      threw := false }
  else
    let st2 := markOrigin st url
    let ct := (hGet resp.headers "content-type").getD ""
    if strContains ct packetCt then
      match handleOptimizedPacketResponse env net st2 resp url with
      | none =>
          { requests := [r1], response := resp, registry := st2,
            events := evs1 ++ evs2, threw := true }
      | some (reqs, outR, evs3) =>
          { requests := r1 :: reqs, response := outR, registry := st2,
            events := evs1 ++ evs2 ++ evs3, threw := false }
    else if strContains ct jsonCt then
      match learnFromJsonResponse env st2 resp url with
      | (st3, outR, evs3) =>
          { requests := [r1], response := outR, registry := st3,
            events := evs1 ++ evs2 ++ evs3, threw := false }
    else
      { requests := [r1], response := resp, registry := st2, events := evs1 ++ evs2,
        threw := false }

/-- Source (core.ts 138-209): `synpaticoFetch`, including the target-URL
passthrough gate (core.ts 143-145). -/
def synpaticoFetch (env : Env) (net : Request → Resp) (st : Registry)
    (url : String) (init : ReqInit) : FetchResult :=
  match env.isTargetUrl with
  | some p =>
      if p url then synpaticoFetchMain env net st url init
      else
        let r : Request := { url := url, init := init }
        { requests := [r], response := net r, registry := st, events := [],
          threw := false }
  | none => synpaticoFetchMain env net st url init

/-- The target-URL gate lets the call through. -/
def targetOk (env : Env) (url : String) : Prop :=
  ∀ p, env.isTargetUrl = some p → p url = true

/-! ## Telemetry usage worker (src/lib/sdk/usageWorker.ts) -/

def MAX_PATHS_PER_BUCKET : Nat := 5000

def bucketKey (sid ep : String) : String := sid ++ "@@" ++ ep

inductive TelemetryMsg where
  | strings (structureId endpoint : String) (ts : Nat) (paths : List String) : TelemetryMsg
  | ordinals (structureId endpoint : String) (ts : Nat) (ords : List Int) : TelemetryMsg

/-- One path read into a bucket (usageWorker.ts 30-39 loop body): a path
new to a saturated bucket is skipped, otherwise its count is bumped. -/
def addPath (bucket : List (String × Nat)) (p : String) : List (String × Nat) :=
  if !(aHas bucket p) && decide (MAX_PATHS_PER_BUCKET ≤ bucket.length) then bucket
  else aSet bucket p ((aGet bucket p).getD 0 + 1)

def addPaths (bucket : List (String × Nat)) (ps : List String) : List (String × Nat) :=
  ps.foldl addPath bucket

def msgPaths : TelemetryMsg → List String
  | TelemetryMsg.strings _ _ _ paths => paths
  | TelemetryMsg.ordinals _ _ _ ords => ords.map (fun o => toString o)

def msgKey : TelemetryMsg → String
  | TelemetryMsg.strings sid ep _ _ => bucketKey sid ep
  | TelemetryMsg.ordinals sid ep _ _ => bucketKey sid ep

/-- Source (usageWorker.ts 22-41): `handleMsg` over the bucket map. -/
def handleMsg (bs : List (String × List (String × Nat))) (msg : TelemetryMsg) :
    List (String × List (String × Nat)) :=
  let key := msgKey msg
  let bucket := (aGet bs key).getD []
  aSet bs key (addPaths bucket (msgPaths msg))

/-- The worker state after a sequence of telemetry messages, from empty. -/
def handleMsgs (msgs : List TelemetryMsg) : List (String × List (String × Nat)) :=
  msgs.foldl handleMsg []

/-! ## Access instrumentation (src/unnamed/part_000, createTrackingProxy)

Decoded JS values: primitives carry their `typeof` tag; `vdate`,
`vregexp`, `verror` are the opaque built-ins the factory refuses to wrap;
`inst` is any other non-plain object (constructor not `Object`). -/

inductive JsVal where
  | prim (tag : String) : JsVal
  | vdate : JsVal
  | vregexp : JsVal
  | verror : JsVal
  | inst (fields : List (String × JsVal)) : JsVal
  | arr (xs : List JsVal) : JsVal
  | obj (fields : List (String × JsVal)) : JsVal

/-- `Reflect.get`: field lookup on objects, index lookup on arrays,
`undefined` otherwise. -/
def jsGet (v : JsVal) (prop : String) : JsVal :=
  match v with
  | JsVal.obj fs => ((fs.find? (fun kv => kv.1 == prop)).map (fun kv => kv.2)).getD (JsVal.prim "undefined")
  | JsVal.inst fs => ((fs.find? (fun kv => kv.1 == prop)).map (fun kv => kv.2)).getD (JsVal.prim "undefined")
  | JsVal.arr xs =>
      match prop.toNat? with
      | some i => (xs.get? i).getD (JsVal.prim "undefined")
      | none => JsVal.prim "undefined"
  | _ => JsVal.prim "undefined"

/-- The `dataType` recorded in an access event. -/
def dataTypeOf : JsVal → String
  | JsVal.prim tag => tag
  | JsVal.arr _ => "array"
  | _ => "object"

structure ProxyOptions where
  trackArrayAccess : Bool
  trackMethodCalls : Bool
  maxDepth : Nat
  excludePaths : List String

/-- Source (part_000 27-32): `DEFAULT_OPTIONS`. -/
def DEFAULT_OPTIONS : ProxyOptions :=
  { trackArrayAccess := true, trackMethodCalls := false, maxDepth := 10,
    excludePaths := ["constructor", "prototype", "__proto__", "valueOf", "toString"] }

/-- A value handed to application code: either the bare value (returned
unwrapped) or a tracking proxy around it. -/
inductive Tracked where
  | raw (v : JsVal) : Tracked
  | proxied (v : JsVal) (fullPath : String) (depth : Nat) : Tracked

/-- part_000 50-54: the fullPath computation from rootPath/currentPath. -/
def fullPathOf (rootPath : Option String) (currentPath : String) : String :=
  if currentPath == "" then rootPath.getD ""
  else
    match rootPath with
    | some rp => rp ++ "." ++ currentPath
    | none => currentPath

/-- Source (part_000 37-56): `createTrackingProxy` up to the `Proxy`
construction: refuses non-objects, null, opaque built-ins, and values past
`maxDepth`; wraps everything else. -/
def createTrackingProxy (rootPath : Option String) (target : JsVal)
    (opts : ProxyOptions) (currentPath : String) (depth : Nat) : Tracked :=
  if opts.maxDepth < depth then Tracked.raw target
  else
    match target with
    | JsVal.prim _ => Tracked.raw target
    | JsVal.vdate => Tracked.raw target
    | JsVal.vregexp => Tracked.raw target
    | JsVal.verror => Tracked.raw target
    | _ => Tracked.proxied target (fullPathOf rootPath currentPath) depth

structure AccessEvent where
  propertyPath : String
  depth : Nat
  dataType : String

/-- Source (part_000 57-94): the proxy `get` trap, as one read step.  On a
bare value the platform get applies with no instrumentation.  On a proxy:
excluded names pass straight through; otherwise an event is recorded and
plain objects (and arrays, when `trackArrayAccess`) recurse one level
deeper, while every other value is returned unwrapped. -/
def getStep (opts : ProxyOptions) (rootPath : Option String) (t : Tracked)
    (prop : String) : List AccessEvent × Tracked :=
  match t with
  | Tracked.raw v => ([], Tracked.raw (jsGet v prop))
  | Tracked.proxied v fullPath depth =>
      if opts.excludePaths.contains prop then ([], Tracked.raw (jsGet v prop))
      else
        let propertyPath := if fullPath == "" then prop else fullPath ++ "." ++ prop
        let value := jsGet v prop
        let ev : AccessEvent :=
          { propertyPath := propertyPath, depth := depth, dataType := dataTypeOf value }
        let res :=
          match value with
          | JsVal.arr _ =>
              if opts.trackArrayAccess then
                createTrackingProxy rootPath value opts propertyPath (depth + 1)
              else Tracked.raw value
          | JsVal.obj _ => createTrackingProxy rootPath value opts propertyPath (depth + 1)
          | _ => Tracked.raw value
        ([ev], res)

/-- A chain of property reads through the proxy, accumulating events. -/
def readChain (opts : ProxyOptions) (rootPath : Option String) (t : Tracked) :
    List String → List AccessEvent × Tracked
  | [] => ([], t)
  | p :: ps =>
      match getStep opts rootPath t p with
      | (evs, t2) =>
          match readChain opts rootPath t2 ps with
          | (evs2, t3) => (evs ++ evs2, t3)

/-- `maxDepth` invariant on a value handed out: a proxy always carries a
depth within budget. -/
def depthBounded (m : Nat) : Tracked → Prop
  | Tracked.raw _ => True
  | Tracked.proxied _ _ d => d ≤ m

/-! ## Auxiliary classifications and concrete fixtures -/

/-- Events produced by invoking the optional request/response hooks
themselves (as opposed to learn/decode notifications). -/
def isHookEv : Ev → Bool
  | Ev.evBeforeRequest _ _ _ => true
  | Ev.evAfterResponse _ _ => true
  | Ev.evError ph _ => ph == "request" || ph == "response"
  | _ => false

/-- A plain environment: no target filter, lifecycle on but no user hooks,
no transform; codec assigns id "S1" to every shape. -/
def envPlain : Env :=
  { isTargetUrl := none, enableLifecycle := true, beforeRequest := none,
    afterResponse := none, transformDecoded := none,
    codecId := fun _ => "S1", decode := fun _ _ => none }

def urlQ1 : String := "https://a.com/r?x=1"
def urlQ2 : String := "https://a.com/r?x=2"

def initEmpty : ReqInit := { method := none, headers := [] }
def initPost : ReqInit := { method := some "POST", headers := [] }
def initAuth : ReqInit := { method := none, headers := [("authorization", "secret")] }

/-- A cooperating learning response: agent marker, plain JSON object body
(with cosmetic whitespace in the raw text). -/
def respLearnA : Resp :=
  { status := 200, statusText := "OK",
    headers := [("content-type", "application/json"), ("x-synpatico-agent", "1")],
    body := " \x7b\"a\": 1\x7d" }

/-- A 409 response with no agent marker. -/
def resp409Bare : Resp :=
  { status := 409, statusText := "Conflict", headers := [], body := "" }

/-- A success response with no agent marker. -/
def respOkNoAgent : Resp :=
  { status := 200, statusText := "OK", headers := [("k", "v")], body := "ok" }

/-- A compact-packet response whose structure id is not in the registry. -/
def respPacketUnknown : Resp :=
  { status := 200, statusText := "OK",
    headers := [("content-type", "application/synpatico-packet+json"),
                ("x-synpatico-agent", "1")],
    body := "\x7b\"structureId\":\"ZZ\",\"values\":[1]\x7d" }

/-- A cooperating JSON response whose body is not parseable JSON. -/
def respBadJson : Resp :=
  { status := 200, statusText := "OK",
    headers := [("content-type", "application/json"), ("x-synpatico-agent", "1")],
    body := "not json" }

/-- A compact-packet response whose body is not parseable JSON. -/
def respPacketBad : Resp :=
  { status := 200, statusText := "OK",
    headers := [("content-type", "application/synpatico-packet+json"),
                ("x-synpatico-agent", "1")],
    body := "not json" }

/-- A compact-packet response whose body is the JSON document null. -/
def respPacketNull : Resp :=
  { status := 200, statusText := "OK",
    headers := [("content-type", "application/synpatico-packet+json"),
                ("x-synpatico-agent", "1")],
    body := "null" }

/-- A compact-packet response referencing the known structure "S1". -/
def respPacketS1 : Resp :=
  { status := 200, statusText := "OK",
    headers := [("content-type", "application/synpatico-packet+json"),
                ("x-synpatico-agent", "1")],
    body := "\x7b\"structureId\":\"S1\",\"values\":[2]\x7d" }

def netLearn : Request → Resp := fun _ => respLearnA

/-- Server that answers a hinted call with a bare 409 and an unhinted call
with a plain success. -/
def netHint409 : Request → Resp := fun r =>
  if hHas r.init.headers acceptHdr then resp409Bare else respOkNoAgent

/-- Server that answers the caller's authorized call with an
unknown-structure packet and anything else with a plain success. -/
def netPacketAuth : Request → Resp := fun r =>
  if hHas r.init.headers "authorization" then respPacketUnknown else respOkNoAgent

def netBadJson : Request → Resp := fun _ => respBadJson

def netPacketBad : Request → Resp := fun _ => respPacketBad

def netPacketS1 : Request → Resp := fun _ => respPacketS1

def netPacketNull : Request → Resp := fun _ => respPacketNull

/-- Like `envPlain` but with a codec whose decode succeeds, returning the
source value the definition was learned from. -/
def envDecodeId : Env :=
  { envPlain with decode := fun _ d => some d.src }

/-- A registry that already learned "S1" for `urlQ1` at origin a.com. -/
def stHinted : Registry :=
  { structures := [("S1", { id := "S1", src := Json.obj [("a", Json.num 1)] })],
    requestToStructureId := [(urlQ1, "S1")],
    knownOrigins := ["https://a.com"] }

/-- A telemetry bucket already holding `MAX_PATHS_PER_BUCKET` paths. -/
def satBucket : List (String × Nat) := List.replicate MAX_PATHS_PER_BUCKET ("p", 1)

def msgsSmall : List TelemetryMsg := [TelemetryMsg.strings "s" "e" 0 ["a", "b", "a"]]

/-! # Helper lemmas -/

theorem aGet_cons {β : Type} (kv : String × β) (l : List (String × β)) (k : String) :
    aGet (kv :: l) k = if kv.1 == k then some kv.2 else aGet l k := by
  cases h : kv.1 == k <;> simp [aGet, List.find?, h]

theorem aGet_aSet_self {β : Type} (l : List (String × β)) (k : String) (v : β) :
    aGet (aSet l k v) k = some v := by
  induction l with
  | nil => simp [aSet, aGet_cons, aGet]
  | cons kv rest ih =>
      by_cases h : kv.1 = k
      · have hb : (kv.1 == k) = true := beq_iff_eq.mpr h
        simp [aSet, hb, aGet_cons]
      · have hb : (kv.1 == k) = false := beq_eq_false_iff_ne.mpr h
        simp [aSet, hb, aGet_cons, ih]

theorem aGet_aSet_ne {β : Type} (l : List (String × β)) (k : String) (v : β)
    (u : String) (h : u ≠ k) : aGet (aSet l k v) u = aGet l u := by
  have hku : (k == u) = false := beq_eq_false_iff_ne.mpr (Ne.symm h)
  induction l with
  | nil => simp [aSet, aGet_cons, aGet, hku]
  | cons kv rest ih =>
      by_cases hk : kv.1 = k
      · have hkb : (kv.1 == k) = true := beq_iff_eq.mpr hk
        have hu : (kv.1 == u) = false := beq_eq_false_iff_ne.mpr (hk ▸ Ne.symm h)
        simp [aSet, hkb, aGet_cons, hku, hu]
      · have hb : (kv.1 == k) = false := beq_eq_false_iff_ne.mpr hk
        cases hu : kv.1 == u <;> simp [aSet, hb, aGet_cons, hu, ih]

theorem aSet_length_le {β : Type} (l : List (String × β)) (k : String) (v : β) :
    (aSet l k v).length ≤ l.length + 1 := by
  induction l with
  | nil => simp [aSet]
  | cons kv rest ih =>
      by_cases h : kv.1 = k
      · simp [aSet, h]
      · have hb : (kv.1 == k) = false := beq_eq_false_iff_ne.mpr h
        simp [aSet, hb]
        omega

theorem aSet_length_of_has {β : Type} (l : List (String × β)) (k : String) (v : β)
    (h : aHas l k = true) : (aSet l k v).length = l.length := by
  induction l with
  | nil => simp [aHas, aGet] at h
  | cons kv rest ih =>
      by_cases hk : kv.1 = k
      · simp [aSet, hk]
      · have hb : (kv.1 == k) = false := beq_eq_false_iff_ne.mpr hk
        have h2 : aHas rest k = true := by
          simpa [aHas, aGet, hb] using h
        simp [aSet, hb, ih h2]

/-- `find?` is unchanged by filtering with a predicate implied by the
search predicate's complement (the removed entries can never be found). -/
theorem find?_filter_of_imp {α : Type} (l : List α) (p q : α → Bool)
    (h : ∀ a, p a = true → q a = true) : (l.filter q).find? p = l.find? p := by
  induction l with
  | nil => rfl
  | cons a rest ih =>
      by_cases hp : p a = true
      · simp [List.filter, h a hp, List.find?, hp]
      · have hp' : p a = false := by revert hp; cases p a <;> simp
        cases hq : q a <;> simp [List.filter, hq, List.find?, hp', ih]

theorem hGet_hSet_self (hs : List (String × String)) (k v : String) :
    hGet (hSet hs k v) k = some v := by
  unfold hGet hSet
  rw [List.find?_append]
  have h1 : (hs.filter (fun kv => !(kv.1 == lowerStr k))).find?
      (fun kv => kv.1 == lowerStr k) = none := by
    rw [List.find?_eq_none]
    intro kv hmem
    have := List.of_mem_filter hmem
    revert this
    cases kv.1 == lowerStr k <;> simp
  simp [h1, List.find?]

theorem hGet_hSet_ne (hs : List (String × String)) (k v u : String)
    (h : lowerStr u ≠ lowerStr k) : hGet (hSet hs k v) u = hGet hs u := by
  unfold hGet hSet
  rw [List.find?_append]
  have h1 : (hs.filter (fun kv => !(kv.1 == lowerStr k))).find?
      (fun kv => kv.1 == lowerStr u) = hs.find? (fun kv => kv.1 == lowerStr u) := by
    apply find?_filter_of_imp
    intro kv hkv
    have : kv.1 = lowerStr u := by simpa using hkv
    have : (kv.1 == lowerStr k) = false := by
      rw [this]; exact beq_eq_false_iff_ne.mpr h
    simp [this]
  have h2 : ((lowerStr k, v).1 == lowerStr u) = false :=
    beq_eq_false_iff_ne.mpr (Ne.symm h)
  rw [h1]
  cases hfind : hs.find? (fun kv => kv.1 == lowerStr u) <;>
    simp [List.find?, h2]

theorem mem_preEvents_isHook (env : Env) (url : String) (w : Bool)
    (hint : Option String) (e : Ev) (h : e ∈ preEvents env url w hint) :
    isHookEv e = true := by
  unfold preEvents at h
  by_cases hl : env.enableLifecycle = true
  · rw [hl] at h
    simp only [if_true] at h
    cases hb : env.beforeRequest with
    | none => rw [hb] at h; simp at h
    | some throws =>
        rw [hb] at h
        rcases List.mem_cons.mp h with h1 | h2
        · rw [h1]; rfl
        · cases throws with
          | true => simp at h2; rw [h2]; rfl
          | false => simp at h2
  · have hl' : env.enableLifecycle = false := by revert hl; cases env.enableLifecycle <;> simp
    rw [hl'] at h; simp at h

theorem mem_postEvents_isHook (env : Env) (url : String) (w : Bool) (e : Ev)
    (h : e ∈ postEvents env url w) : isHookEv e = true := by
  unfold postEvents at h
  by_cases hl : env.enableLifecycle = true
  · rw [hl] at h
    simp only [if_true] at h
    cases hb : env.afterResponse with
    | none => rw [hb] at h; simp at h
    | some throws =>
        rw [hb] at h
        rcases List.mem_cons.mp h with h1 | h2
        · rw [h1]; rfl
        · cases throws with
          | true => simp at h2; rw [h2]; rfl
          | false => simp at h2
  · have hl' : env.enableLifecycle = false := by revert hl; cases env.enableLifecycle <;> simp
    rw [hl'] at h; simp at h

/-- A call accepted by the target gate goes through the main procedure. -/
theorem fetch_eq_main (env : Env) (net : Request → Resp) (st : Registry)
    (url : String) (init : ReqInit) (h : targetOk env url) :
    synpaticoFetch env net st url init = synpaticoFetchMain env net st url init := by
  unfold synpaticoFetch
  cases henv : env.isTargetUrl with
  | none => rfl
  | some p => simp [h p henv]

theorem find?_filter_not {α : Type} (l : List α) (p : α → Bool) :
    (l.filter (fun a => !(p a))).find? p = none := by
  rw [List.find?_eq_none]
  intro a ha
  have := List.of_mem_filter ha
  revert this
  cases p a <;> simp

theorem hHas_hDelete (hs : List (String × String)) (k : String) :
    hHas (hDelete hs k) k = false := by
  unfold hHas hGet hDelete
  rw [find?_filter_not hs (fun kv => kv.1 == lowerStr k)]
  rfl

theorem lower_ct : lowerStr "Content-Type" = "content-type" := rfl

/-- An unoptimizable call never gets a hint (core.ts 30). -/
theorem acceptIdHint_not_opt (st : Registry) (url : String) :
    acceptIdHint st url false = none := by
  unfold acceptIdHint
  cases parseUrl url <;> simp

theorem markOrigin_requestMap (st : Registry) (url : String) :
    (markOrigin st url).requestToStructureId = st.requestToStructureId := by
  unfold markOrigin
  cases parseUrl url with
  | none => rfl
  | some u =>
      dsimp only
      by_cases h : st.knownOrigins.contains u.origin = true
      · rw [if_pos h]
      · rw [if_neg h]

theorem markOrigin_structures (st : Registry) (url : String) :
    (markOrigin st url).structures = st.structures := by
  unfold markOrigin
  cases parseUrl url with
  | none => rfl
  | some u =>
      dsimp only
      by_cases h : st.knownOrigins.contains u.origin = true
      · rw [if_pos h]
      · rw [if_neg h]

/-- Branch characterization: hinted call answered with 409 (core.ts
188-193). -/
theorem main_retry (env : Env) (net : Request → Resp) (st : Registry)
    (url : String) (init : ReqInit) (sid : String)
    (hh : hintFor st url init = some sid)
    (h409 : (net (firstRequest st url init)).status = 409) :
    synpaticoFetchMain env net st url init =
      { requests := [firstRequest st url init, retryRequest url init],
        response := net (retryRequest url init),
        registry := st,
        events := preEvents env url true (some sid) ++ postEvents env url true,
        threw := false } := by
  unfold synpaticoFetchMain
  simp only [hh, h409, Option.isSome_some]
  simp

/-- Branch characterization: no 409 retry and no agent marker (core.ts
195-197). -/
theorem main_passthrough (env : Env) (net : Request → Resp) (st : Registry)
    (url : String) (init : ReqInit)
    (hno : ((net (firstRequest st url init)).status == 409 &&
      (hintFor st url init).isSome) = false)
    (hmk : hHas (net (firstRequest st url init)).headers agentHdr = false) :
    synpaticoFetchMain env net st url init =
      { requests := [firstRequest st url init],
        response := net (firstRequest st url init),
        registry := st,
        events := preEvents env url (hintFor st url init).isSome (hintFor st url init) ++
          postEvents env url (hintFor st url init).isSome,
        threw := false } := by
  unfold synpaticoFetchMain
  simp only [hno, hmk]
  simp

/-- Branch characterization: marked response with packet content type
(core.ts 199-204). -/
theorem main_packet (env : Env) (net : Request → Resp) (st : Registry)
    (url : String) (init : ReqInit)
    (hno : ((net (firstRequest st url init)).status == 409 &&
      (hintFor st url init).isSome) = false)
    (hmk : hHas (net (firstRequest st url init)).headers agentHdr = true)
    (hpk : strContains
      ((hGet (net (firstRequest st url init)).headers "content-type").getD "")
      packetCt = true)
    (reqs : List Request) (outR : Resp) (evs3 : List Ev)
    (hres : handleOptimizedPacketResponse env net (markOrigin st url)
      (net (firstRequest st url init)) url = some (reqs, outR, evs3)) :
    synpaticoFetchMain env net st url init =
      { requests := firstRequest st url init :: reqs,
        response := outR,
        registry := markOrigin st url,
        events := preEvents env url (hintFor st url init).isSome (hintFor st url init) ++
          postEvents env url (hintFor st url init).isSome ++ evs3,
        threw := false } := by
  unfold synpaticoFetchMain
  simp only [hno, hmk, hpk, hres]
  simp

/-- Branch characterization: marked packet response whose handling raises
an escaped exception — the caller's promise rejects with no response,
after the hook events and the origin marking (core.ts 199-203, 60). -/
theorem main_packet_crash (env : Env) (net : Request → Resp) (st : Registry)
    (url : String) (init : ReqInit)
    (hno : ((net (firstRequest st url init)).status == 409 &&
      (hintFor st url init).isSome) = false)
    (hmk : hHas (net (firstRequest st url init)).headers agentHdr = true)
    (hpk : strContains
      ((hGet (net (firstRequest st url init)).headers "content-type").getD "")
      packetCt = true)
    (hres : handleOptimizedPacketResponse env net (markOrigin st url)
      (net (firstRequest st url init)) url = none) :
    synpaticoFetchMain env net st url init =
      { requests := [firstRequest st url init],
        response := net (firstRequest st url init),
        registry := markOrigin st url,
        events := preEvents env url (hintFor st url init).isSome (hintFor st url init) ++
          postEvents env url (hintFor st url init).isSome,
        threw := true } := by
  unfold synpaticoFetchMain
  simp only [hno, hmk, hpk, hres]
  simp

/-- Branch characterization: marked response with plain JSON content type
(core.ts 205-206). -/
theorem main_learn (env : Env) (net : Request → Resp) (st : Registry)
    (url : String) (init : ReqInit)
    (hno : ((net (firstRequest st url init)).status == 409 &&
      (hintFor st url init).isSome) = false)
    (hmk : hHas (net (firstRequest st url init)).headers agentHdr = true)
    (hpk : strContains
      ((hGet (net (firstRequest st url init)).headers "content-type").getD "")
      packetCt = false)
    (hjs : strContains
      ((hGet (net (firstRequest st url init)).headers "content-type").getD "")
      jsonCt = true)
    (st3 : Registry) (outR : Resp) (evs3 : List Ev)
    (hres : learnFromJsonResponse env (markOrigin st url)
      (net (firstRequest st url init)) url = (st3, outR, evs3)) :
    synpaticoFetchMain env net st url init =
      { requests := [firstRequest st url init],
        response := outR,
        registry := st3,
        events := preEvents env url (hintFor st url init).isSome (hintFor st url init) ++
          postEvents env url (hintFor st url init).isSome ++ evs3,
        threw := false } := by
  unfold synpaticoFetchMain
  simp only [hno, hmk, hpk, hjs, hres]
  simp

/-- Branch characterization: marked response with a non-JSON content type
(core.ts 208). -/
theorem main_marked_other (env : Env) (net : Request → Resp) (st : Registry)
    (url : String) (init : ReqInit)
    (hno : ((net (firstRequest st url init)).status == 409 &&
      (hintFor st url init).isSome) = false)
    (hmk : hHas (net (firstRequest st url init)).headers agentHdr = true)
    (hpk : strContains
      ((hGet (net (firstRequest st url init)).headers "content-type").getD "")
      packetCt = false)
    (hjs : strContains
      ((hGet (net (firstRequest st url init)).headers "content-type").getD "")
      jsonCt = false) :
    synpaticoFetchMain env net st url init =
      { requests := [firstRequest st url init],
        response := net (firstRequest st url init),
        registry := markOrigin st url,
        events := preEvents env url (hintFor st url init).isSome (hintFor st url init) ++
          postEvents env url (hintFor st url init).isSome,
        threw := false } := by
  unfold synpaticoFetchMain
  simp only [hno, hmk, hpk, hjs]
  simp

/-- Learn-path characterization: parse failure falls through silently
(core.ts 132-135). -/
theorem learn_parse_fail (env : Env) (st : Registry) (resp : Resp) (url : String)
    (h : parseJson resp.body = none) :
    learnFromJsonResponse env st resp url = (st, resp, []) := by
  unfold learnFromJsonResponse
  simp only [h]

/-- Learn-path characterization: non-object JSON body falls through
(core.ts 108, 131). -/
theorem learn_not_obj (env : Env) (st : Registry) (resp : Resp) (url : String)
    (j : Json) (h : parseJson resp.body = some j) (ho : isPlainObject j = false) :
    learnFromJsonResponse env st resp url = (st, resp, []) := by
  unfold learnFromJsonResponse
  simp only [h, ho]
  simp

/-- Learn-path characterization: plain-object body registers the structure
and rebuilds the response (core.ts 108-130). -/
theorem learn_obj (env : Env) (st : Registry) (resp : Resp) (url : String)
    (j : Json) (h : parseJson resp.body = some j) (ho : isPlainObject j = true) :
    learnFromJsonResponse env st resp url =
      ({ st with
          structures := aSet st.structures (env.codecId j) (mkDef env j),
          requestToStructureId := aSet st.requestToStructureId url (env.codecId j) },
       rebuiltResponse resp (learnOut env url j),
       [Ev.evLearnedStructure url (env.codecId j)]) := by
  unfold learnFromJsonResponse
  simp only [h, ho]
  simp [mkDef]

/-- Packet-path characterization: malformed packet JSON reports a decode
error and reissues unoptimized (core.ts 53-58). -/
theorem packet_parse_fail (env : Env) (net : Request → Resp) (st : Registry)
    (resp : Resp) (url : String) (h : parseJson resp.body = none) :
    handleOptimizedPacketResponse env net st resp url =
      some ([reissueRequest url], net (reissueRequest url),
        [Ev.evError "decode" (some url)]) := by
  unfold handleOptimizedPacketResponse
  simp only [h]

/-- Packet-path characterization: a packet body parsing to JSON null makes
the structureId dereference at core.ts line 60 throw outside any try; the
exception escapes the handler. -/
theorem packet_null (env : Env) (net : Request → Resp) (st : Registry)
    (resp : Resp) (url : String) (h : parseJson resp.body = some Json.null) :
    handleOptimizedPacketResponse env net st resp url = none := by
  unfold handleOptimizedPacketResponse
  simp only [h, isNullJson, if_true]

/-- A packet whose structureId lookup produced anything cannot be the JSON
null value (a property access on null would have thrown instead). -/
theorem notNull_of_bind_some {β : Type} (pkt : Json)
    (f : String → Option β) (x : β)
    (h : (getStrField pkt "structureId").bind f = some x) :
    isNullJson pkt = false := by
  cases pkt with
  | null => exact absurd h (by simp [getStrField, getField])
  | bool b => rfl
  | num n => rfl
  | str s => rfl
  | arr xs => rfl
  | obj fs => rfl

/-- Packet-path characterization: unknown structure id reissues with no
notification (core.ts 60-61). -/
theorem packet_unknown (env : Env) (net : Request → Resp) (st : Registry)
    (resp : Resp) (url : String) (pkt : Json)
    (h : parseJson resp.body = some pkt)
    (hn : isNullJson pkt = false)
    (hu : (getStrField pkt "structureId").bind (fun s => aGet st.structures s) = none) :
    handleOptimizedPacketResponse env net st resp url =
      some ([reissueRequest url], net (reissueRequest url), []) := by
  unfold handleOptimizedPacketResponse
  simp only [h, hn, Bool.false_eq_true, if_false]
  simp only [hu]

/-- Packet-path characterization: codec decode failure reports a decode
error and reissues unoptimized (core.ts 98-101). -/
theorem packet_decode_fail (env : Env) (net : Request → Resp) (st : Registry)
    (resp : Resp) (url : String) (pkt : Json) (def_ : StructureDef)
    (h : parseJson resp.body = some pkt)
    (hd : (getStrField pkt "structureId").bind (fun s => aGet st.structures s) = some def_)
    (hf : env.decode pkt def_ = none) :
    handleOptimizedPacketResponse env net st resp url =
      some ([reissueRequest url], net (reissueRequest url),
        [Ev.evError "decode" (some url)]) := by
  have hn : isNullJson pkt = false := notNull_of_bind_some pkt _ _ hd
  unfold handleOptimizedPacketResponse
  simp only [h, hn, Bool.false_eq_true, if_false]
  simp only [hd, hf]

/-- Packet-path characterization: successful decode rebuilds the response
(core.ts 70-97). -/
theorem packet_ok (env : Env) (net : Request → Resp) (st : Registry)
    (resp : Resp) (url : String) (pkt : Json) (def_ : StructureDef) (decoded : Json)
    (h : parseJson resp.body = some pkt)
    (hd : (getStrField pkt "structureId").bind (fun s => aGet st.structures s) = some def_)
    (hf : env.decode pkt def_ = some decoded) :
    handleOptimizedPacketResponse env net st resp url =
      some ([], rebuiltResponse resp (packetOut env url def_.id decoded),
        [Ev.evPacketDecoded url def_.id]) := by
  have hn : isNullJson pkt = false := notNull_of_bind_some pkt _ _ hd
  unfold handleOptimizedPacketResponse
  simp only [h, hn, Bool.false_eq_true, if_false]
  simp only [hd, hf]

theorem aHas_cons {β : Type} (kv : String × β) (l : List (String × β)) (k : String) :
    aHas (kv :: l) k = ((kv.1 == k) || aHas l k) := by
  unfold aHas
  rw [aGet_cons]
  cases h : kv.1 == k <;> simp [h]

theorem aHas_replicate_p (n : Nat) :
    aHas (List.replicate n ("p", (1 : Nat))) "x" = false := by
  induction n with
  | zero => rfl
  | succ m ih =>
      rw [List.replicate_succ, aHas_cons]
      have hp : ((("p" : String), (1 : Nat)).1 == "x") = false := by decide
      rw [hp, ih]
      rfl

theorem satBucket_not_has : aHas satBucket "x" = false :=
  aHas_replicate_p MAX_PATHS_PER_BUCKET

theorem satBucket_len : MAX_PATHS_PER_BUCKET ≤ satBucket.length := by
  unfold satBucket
  rw [List.length_replicate]

/-- One path read never pushes a bucket past the cap. -/
theorem addPath_length (bucket : List (String × Nat)) (p : String)
    (h : bucket.length ≤ MAX_PATHS_PER_BUCKET) :
    (addPath bucket p).length ≤ MAX_PATHS_PER_BUCKET := by
  unfold addPath
  by_cases hh : aHas bucket p = true
  · rw [hh]
    show (aSet bucket p ((aGet bucket p).getD 0 + 1)).length ≤ MAX_PATHS_PER_BUCKET
    rw [aSet_length_of_has _ _ _ hh]
    exact h
  · have hh' : aHas bucket p = false := by revert hh; cases aHas bucket p <;> simp
    rw [hh']
    by_cases hlen : MAX_PATHS_PER_BUCKET ≤ bucket.length
    · rw [decide_eq_true hlen]
      exact h
    · rw [decide_eq_false hlen]
      show (aSet bucket p ((aGet bucket p).getD 0 + 1)).length ≤ MAX_PATHS_PER_BUCKET
      have := aSet_length_le bucket p ((aGet bucket p).getD 0 + 1)
      omega

theorem addPaths_length (ps : List String) (bucket : List (String × Nat))
    (h : bucket.length ≤ MAX_PATHS_PER_BUCKET) :
    (addPaths bucket ps).length ≤ MAX_PATHS_PER_BUCKET := by
  induction ps generalizing bucket with
  | nil => exact h
  | cons p rest ih => exact ih (addPath bucket p) (addPath_length bucket p h)

/-- Every bucket in a worker state respects the cap. -/
def bucketsBounded (bs : List (String × List (String × Nat))) : Prop :=
  ∀ key b, aGet bs key = some b → b.length ≤ MAX_PATHS_PER_BUCKET

theorem handleMsg_bounded (bs : List (String × List (String × Nat)))
    (msg : TelemetryMsg) (h : bucketsBounded bs) : bucketsBounded (handleMsg bs msg) := by
  intro key b hb
  unfold handleMsg at hb
  by_cases hk : key = msgKey msg
  · rw [hk, aGet_aSet_self] at hb
    have hold : ((aGet bs (msgKey msg)).getD []).length ≤ MAX_PATHS_PER_BUCKET := by
      cases hg : aGet bs (msgKey msg) with
      | none => simp
      | some b0 =>
          have := h (msgKey msg) b0 hg
          simpa using this
    rw [← Option.some_inj.mp hb]
    exact addPaths_length _ _ hold
  · rw [aGet_aSet_ne _ _ _ _ hk] at hb
    exact h key b hb

theorem foldl_handleMsg_bounded (msgs : List TelemetryMsg)
    (bs : List (String × List (String × Nat))) (h : bucketsBounded bs) :
    bucketsBounded (msgs.foldl handleMsg bs) := by
  induction msgs generalizing bs with
  | nil => exact h
  | cons m rest ih => exact ih (handleMsg bs m) (handleMsg_bounded bs m h)

/-- A value handed out by the factory always respects the depth budget. -/
theorem ctp_depthBounded (rootPath : Option String) (v : JsVal) (opts : ProxyOptions)
    (path : String) (d : Nat) :
    depthBounded opts.maxDepth (createTrackingProxy rootPath v opts path d) := by
  unfold createTrackingProxy
  by_cases h : opts.maxDepth < d
  · rw [if_pos h]
    trivial
  · rw [if_neg h]
    cases v <;> simp [depthBounded] <;> omega

/-- The result of any single read is depth-bounded, whatever it was read
from: a proxy is only ever produced through the factory. -/
theorem getStep_depthBounded (opts : ProxyOptions) (rootPath : Option String)
    (t : Tracked) (prop : String) :
    depthBounded opts.maxDepth (getStep opts rootPath t prop).2 := by
  cases t with
  | raw v => trivial
  | proxied v fp d =>
      by_cases hx : opts.excludePaths.contains prop = true
      · simp only [getStep, hx, if_true]
        trivial
      · have hx' : opts.excludePaths.contains prop = false := by
          revert hx; cases opts.excludePaths.contains prop <;> simp
        cases hv : jsGet v prop with
        | arr xs =>
            cases ha : opts.trackArrayAccess with
            | true =>
                simp only [getStep, hx', Bool.false_eq_true, if_false, hv, ha, if_true]
                exact ctp_depthBounded _ _ _ _ _
            | false =>
                simp only [getStep, hx', Bool.false_eq_true, if_false, hv, ha]
                trivial
        | obj fs =>
            simp only [getStep, hx', Bool.false_eq_true, if_false, hv]
            exact ctp_depthBounded _ _ _ _ _
        | prim tag =>
            simp only [getStep, hx', Bool.false_eq_true, if_false, hv]
            trivial
        | inst fs =>
            simp only [getStep, hx', Bool.false_eq_true, if_false, hv]
            trivial
        | vdate =>
            simp only [getStep, hx', Bool.false_eq_true, if_false, hv]
            trivial
        | vregexp =>
            simp only [getStep, hx', Bool.false_eq_true, if_false, hv]
            trivial
        | verror =>
            simp only [getStep, hx', Bool.false_eq_true, if_false, hv]
            trivial

theorem readChain_depthBounded (opts : ProxyOptions) (rootPath : Option String)
    (chain : List String) (t : Tracked) (h : depthBounded opts.maxDepth t) :
    depthBounded opts.maxDepth (readChain opts rootPath t chain).2 := by
  induction chain generalizing t with
  | nil => exact h
  | cons p rest ih =>
      unfold readChain
      exact ih (getStep opts rootPath t p).2 (getStep_depthBounded opts rootPath t p)

/-! # Claims -/

/-- Claim C1: for a marked response with plain-JSON content type whose
body parses to a plain object, and no transformDecoded hook configured,
the returned response body is the serialization of the same JSON value
(deep-equal to the original body), and exactly one registry entry is
created for that endpoint, mapping it to the codec's structure id. -/
theorem C1_learn_roundtrip (env : Env) (net : Request → Resp) (st : Registry)
    (url : String) (init : ReqInit) (j : Json)
    (ht : targetOk env url)
    (hno : ((net (firstRequest st url init)).status == 409 &&
      (hintFor st url init).isSome) = false)
    (hmk : hHas (net (firstRequest st url init)).headers agentHdr = true)
    (hpk : strContains
      ((hGet (net (firstRequest st url init)).headers "content-type").getD "")
      packetCt = false)
    (hjs : strContains
      ((hGet (net (firstRequest st url init)).headers "content-type").getD "")
      jsonCt = true)
    (hb : parseJson (net (firstRequest st url init)).body = some j)
    (ho : isPlainObject j = true)
    (htr : env.transformDecoded = none) :
    (synpaticoFetch env net st url init).response.body = stringify j ∧
    aGet (synpaticoFetch env net st url init).registry.requestToStructureId url =
      some (env.codecId j) ∧
    (∀ u, u ≠ url →
      aGet (synpaticoFetch env net st url init).registry.requestToStructureId u =
        aGet st.requestToStructureId u) ∧
    (synpaticoFetch env net st url init).requests = [firstRequest st url init] := by
  rw [fetch_eq_main env net st url init ht,
    main_learn env net st url init hno hmk hpk hjs _ _ _
      (learn_obj env (markOrigin st url) (net (firstRequest st url init)) url j hb ho)]
  refine ⟨?_, ?_, ?_, rfl⟩
  · show (rebuiltResponse _ (learnOut env url j)).body = stringify j
    unfold rebuiltResponse learnOut
    rw [htr]
  · show aGet (aSet (markOrigin st url).requestToStructureId url (env.codecId j)) url =
      some (env.codecId j)
    exact aGet_aSet_self _ _ _
  · intro u hu
    show aGet (aSet (markOrigin st url).requestToStructureId url (env.codecId j)) u =
      aGet st.requestToStructureId u
    rw [aGet_aSet_ne _ _ _ _ hu, markOrigin_requestMap]

theorem C1_witness :
    targetOk envPlain urlQ1 ∧
    parseJson (netLearn (firstRequest emptyRegistry urlQ1 initEmpty)).body =
      some (Json.obj [("a", Json.num 1)]) ∧
    (synpaticoFetch envPlain netLearn emptyRegistry urlQ1 initEmpty).response.body =
      stringify (Json.obj [("a", Json.num 1)]) ∧
    aGet (synpaticoFetch envPlain netLearn emptyRegistry urlQ1
      initEmpty).registry.requestToStructureId urlQ1 = some "S1" := by
  have ht : targetOk envPlain urlQ1 := by intro p hp; cases hp
  have h := C1_learn_roundtrip envPlain netLearn emptyRegistry urlQ1 initEmpty
    (Json.obj [("a", Json.num 1)]) ht rfl rfl rfl rfl rfl rfl rfl
  exact ⟨ht, rfl, h.1, h.2.1⟩

/-- Claim C2: a hinted call answered with status 409 issues exactly one
retry of the same call with the negotiation header removed, and returns
the retried response verbatim: no second retry, no registry change, and no
decode or learn processing of the retried response. -/
theorem C2_conflict_retry (env : Env) (net : Request → Resp) (st : Registry)
    (url : String) (init : ReqInit) (sid : String)
    (ht : targetOk env url)
    (hh : hintFor st url init = some sid)
    (h409 : (net (firstRequest st url init)).status = 409) :
    (synpaticoFetch env net st url init).requests =
      [firstRequest st url init, retryRequest url init] ∧
    (synpaticoFetch env net st url init).response = net (retryRequest url init) ∧
    (synpaticoFetch env net st url init).registry = st ∧
    (retryRequest url init).init.method = init.method ∧
    hHas (retryRequest url init).init.headers acceptHdr = false ∧
    (∀ e, e ∈ (synpaticoFetch env net st url init).events → isHookEv e = true) := by
  rw [fetch_eq_main env net st url init ht,
    main_retry env net st url init sid hh h409]
  refine ⟨rfl, rfl, rfl, rfl, hHas_hDelete _ _, ?_⟩
  intro e he
  rcases List.mem_append.mp he with h1 | h2
  · exact mem_preEvents_isHook _ _ _ _ _ h1
  · exact mem_postEvents_isHook _ _ _ _ h2

theorem C2_witness :
    hintFor stHinted urlQ1 initEmpty = some "S1" ∧
    (netHint409 (firstRequest stHinted urlQ1 initEmpty)).status = 409 ∧
    (synpaticoFetch envPlain netHint409 stHinted urlQ1 initEmpty).requests =
      [firstRequest stHinted urlQ1 initEmpty, retryRequest urlQ1 initEmpty] ∧
    (synpaticoFetch envPlain netHint409 stHinted urlQ1 initEmpty).response =
      netHint409 (retryRequest urlQ1 initEmpty) := by
  have ht : targetOk envPlain urlQ1 := by intro p hp; cases hp
  have h := C2_conflict_retry envPlain netHint409 stHinted urlQ1 initEmpty "S1" ht rfl rfl
  exact ⟨rfl, rfl, h.1, h.2.1⟩

/-- Claim C3 counterexample: a hinted call whose 409 response lacks the
agent marker still triggers the retry, so a marker-less response is not
always returned unmodified with no retry: here two underlying requests are
issued and the caller sees the retried response (status 200), not the
original 409. -/
theorem C3_counterexample :
    hHas (netHint409 (firstRequest stHinted urlQ1 initEmpty)).headers agentHdr = false ∧
    (netHint409 (firstRequest stHinted urlQ1 initEmpty)).status = 409 ∧
    (synpaticoFetch envPlain netHint409 stHinted urlQ1 initEmpty).requests.length = 2 ∧
    (synpaticoFetch envPlain netHint409 stHinted urlQ1 initEmpty).response.status = 200 := by
  exact ⟨rfl, rfl, rfl, rfl⟩

/-- Claim C3 (amended): a response lacking the agent marker is returned
unmodified with no retry and no registry change, unless it is a 409 answer
to a hinted call, in which case the single unhinted retry still fires. -/
theorem C3_passthrough_no_marker (env : Env) (net : Request → Resp) (st : Registry)
    (url : String) (init : ReqInit)
    (ht : targetOk env url)
    (hmk : hHas (net (firstRequest st url init)).headers agentHdr = false)
    (hno : ((net (firstRequest st url init)).status == 409 &&
      (hintFor st url init).isSome) = false) :
    (synpaticoFetch env net st url init).response = net (firstRequest st url init) ∧
    (synpaticoFetch env net st url init).requests = [firstRequest st url init] ∧
    (synpaticoFetch env net st url init).registry = st := by
  rw [fetch_eq_main env net st url init ht,
    main_passthrough env net st url init hno hmk]
  exact ⟨rfl, rfl, rfl⟩

theorem C3_witness :
    hHas (respOkNoAgent).headers agentHdr = false ∧
    (synpaticoFetch envPlain (fun _ => respOkNoAgent) emptyRegistry urlQ1
      initEmpty).response = respOkNoAgent ∧
    (synpaticoFetch envPlain (fun _ => respOkNoAgent) emptyRegistry urlQ1
      initEmpty).registry = emptyRegistry := by
  have ht : targetOk envPlain urlQ1 := by intro p hp; cases hp
  have h := C3_passthrough_no_marker envPlain (fun _ => respOkNoAgent) emptyRegistry
    urlQ1 initEmpty ht rfl rfl
  exact ⟨rfl, h.1, h.2.2⟩

/-- Claim C4 counterexample: a POST call whose response carries the agent
marker and a plain-JSON object body is not passed through untouched — the
client still learns from it, creating a registry entry and marking the
origin, contradicting "no learning, no registry mutation" for non-GET. -/
theorem C4_counterexample :
    fetchMethod initPost = "POST" ∧
    aGet (synpaticoFetch envPlain netLearn emptyRegistry urlQ1
      initPost).registry.requestToStructureId urlQ1 = some "S1" ∧
    (synpaticoFetch envPlain netLearn emptyRegistry urlQ1
      initPost).registry.knownOrigins = ["https://a.com"] := by
  exact ⟨rfl, rfl, rfl⟩

/-- Claim C4 (amended): a non-GET call never gets the negotiation header
attached (its issued headers are exactly the caller's, normalized) and its
409 responses trigger no retry; but the call is not otherwise bypassed:
an unmarked response passes through untouched, while a marked plain-JSON
object response is still learned from, mutating the registry. -/
theorem C4_non_get (env : Env) (net : Request → Resp) (st : Registry)
    (url : String) (init : ReqInit)
    (hm : fetchMethod init ≠ "GET") :
    hintFor st url init = none ∧
    (firstRequest st url init).init.headers = hNorm init.headers ∧
    (targetOk env url →
      hHas (net (firstRequest st url init)).headers agentHdr = false →
      (synpaticoFetch env net st url init).response = net (firstRequest st url init) ∧
      (synpaticoFetch env net st url init).requests = [firstRequest st url init] ∧
      (synpaticoFetch env net st url init).registry = st) ∧
    (∀ j, targetOk env url →
      hHas (net (firstRequest st url init)).headers agentHdr = true →
      strContains
        ((hGet (net (firstRequest st url init)).headers "content-type").getD "")
        packetCt = false →
      strContains
        ((hGet (net (firstRequest st url init)).headers "content-type").getD "")
        jsonCt = true →
      parseJson (net (firstRequest st url init)).body = some j →
      isPlainObject j = true →
      aGet (synpaticoFetch env net st url init).registry.requestToStructureId url =
        some (env.codecId j)) := by
  have hbm : (fetchMethod init == "GET") = false := beq_eq_false_iff_ne.mpr hm
  have h1 : hintFor st url init = none := by
    unfold hintFor
    rw [hbm, acceptIdHint_not_opt]
  have hno : ((net (firstRequest st url init)).status == 409 &&
      (hintFor st url init).isSome) = false := by
    rw [h1]
    simp
  refine ⟨h1, ?_, ?_, ?_⟩
  · unfold firstRequest
    rw [h1]
  · intro ht hmk
    rw [fetch_eq_main env net st url init ht,
      main_passthrough env net st url init hno hmk]
    exact ⟨rfl, rfl, rfl⟩
  · intro j ht hmk hpk hjs hb ho
    rw [fetch_eq_main env net st url init ht,
      main_learn env net st url init hno hmk hpk hjs _ _ _
        (learn_obj env (markOrigin st url) (net (firstRequest st url init)) url j hb ho)]
    show aGet (aSet (markOrigin st url).requestToStructureId url (env.codecId j)) url =
      some (env.codecId j)
    exact aGet_aSet_self _ _ _

theorem C4_witness :
    fetchMethod initPost ≠ "GET" ∧
    hintFor emptyRegistry urlQ1 initPost = none ∧
    aGet (synpaticoFetch envPlain netLearn emptyRegistry urlQ1
      initPost).registry.requestToStructureId urlQ1 = some "S1" := by
  have hm : fetchMethod initPost ≠ "GET" := by decide
  have ht : targetOk envPlain urlQ1 := by intro p hp; cases hp
  have h := C4_non_get envPlain netLearn emptyRegistry urlQ1 initPost hm
  exact ⟨hm, h.1, h.2.2.2 (Json.obj [("a", Json.num 1)]) ht rfl rfl rfl rfl rfl⟩

/-- Claim C5 counterexample: the core client caches under the full URL
string, not under the query-stripped endpoint key: after learning at
`urlQ1`, the hint lookup succeeds only for that exact string and misses
`urlQ2`, which differs only in its query, even though both share the same
`registryKey`; no entry exists under the stripped key itself. -/
theorem C5_counterexample :
    registryKey urlQ1 = registryKey urlQ2 ∧
    urlQ1 ≠ urlQ2 ∧
    hintFor (synpaticoFetch envPlain netLearn emptyRegistry urlQ1
      initEmpty).registry urlQ1 initEmpty = some "S1" ∧
    hintFor (synpaticoFetch envPlain netLearn emptyRegistry urlQ1
      initEmpty).registry urlQ2 initEmpty = none ∧
    aGet (synpaticoFetch envPlain netLearn emptyRegistry urlQ1
      initEmpty).registry.requestToStructureId (registryKey urlQ1) = none := by
  refine ⟨rfl, ?_, rfl, rfl, rfl⟩
  decide

/-- Claim C5 (amended): the core client caches a learned structure id
under the full request URL string, query included — a lookup at any other
URL string, including one differing only in query parameters, does not see
the entry; the query-stripped origin-plus-path derivation (`registryKey`)
belongs to the monkey-patch variant, not to the core cache key. -/
theorem C5_full_url_key :
    (∀ (env : Env) (net : Request → Resp) (st : Registry) (url : String)
      (init : ReqInit) (j : Json), targetOk env url →
      ((net (firstRequest st url init)).status == 409 &&
        (hintFor st url init).isSome) = false →
      hHas (net (firstRequest st url init)).headers agentHdr = true →
      strContains
        ((hGet (net (firstRequest st url init)).headers "content-type").getD "")
        packetCt = false →
      strContains
        ((hGet (net (firstRequest st url init)).headers "content-type").getD "")
        jsonCt = true →
      parseJson (net (firstRequest st url init)).body = some j →
      isPlainObject j = true →
      aGet (synpaticoFetch env net st url init).registry.requestToStructureId url =
        some (env.codecId j) ∧
      (∀ u, u ≠ url →
        aGet (synpaticoFetch env net st url init).registry.requestToStructureId u =
          aGet st.requestToStructureId u)) ∧
    (∀ s u, parseUrl s = some u → registryKey s = u.origin ++ u.path) := by
  constructor
  · intro env net st url init j ht hno hmk hpk hjs hb ho
    rw [fetch_eq_main env net st url init ht,
      main_learn env net st url init hno hmk hpk hjs _ _ _
        (learn_obj env (markOrigin st url) (net (firstRequest st url init)) url j hb ho)]
    constructor
    · show aGet (aSet (markOrigin st url).requestToStructureId url (env.codecId j)) url =
        some (env.codecId j)
      exact aGet_aSet_self _ _ _
    · intro u hu
      show aGet (aSet (markOrigin st url).requestToStructureId url (env.codecId j)) u =
        aGet st.requestToStructureId u
      rw [aGet_aSet_ne _ _ _ _ hu, markOrigin_requestMap]
  · intro s u h
    unfold registryKey
    rw [h]

theorem C5_witness :
    parseUrl urlQ1 = some { origin := "https://a.com", path := "/r" } ∧
    registryKey urlQ1 = "https://a.com" ++ "/r" ∧
    aGet (synpaticoFetch envPlain netLearn emptyRegistry urlQ1
      initEmpty).registry.requestToStructureId urlQ1 = some "S1" ∧
    aGet (synpaticoFetch envPlain netLearn emptyRegistry urlQ1
      initEmpty).registry.requestToStructureId urlQ2 = none := by
  have ht : targetOk envPlain urlQ1 := by intro p hp; cases hp
  have h := C5_full_url_key
  have h1 := h.1 envPlain netLearn emptyRegistry urlQ1 initEmpty
    (Json.obj [("a", Json.num 1)]) ht rfl rfl rfl rfl rfl rfl
  have h2 := h.2 urlQ1 { origin := "https://a.com", path := "/r" } rfl
  have hne : urlQ2 ≠ urlQ1 := by decide
  refine ⟨rfl, h2, h1.1, ?_⟩
  rw [h1.2 urlQ2 hne]
  rfl

/-- Claim C6 counterexample: on an unknown-structure packet the fallback
reissue is `originalFetch(url, {})`: it drops the caller's original
headers (the authorization header is gone) rather than resending the
identical call minus the negotiation header. -/
theorem C6_counterexample :
    (firstRequest emptyRegistry urlQ1 initAuth).init.headers =
      [("authorization", "secret")] ∧
    (synpaticoFetch envPlain netPacketAuth emptyRegistry urlQ1 initAuth).requests =
      [firstRequest emptyRegistry urlQ1 initAuth, reissueRequest urlQ1] ∧
    (reissueRequest urlQ1).init.headers = [] ∧
    (synpaticoFetch envPlain netPacketAuth emptyRegistry urlQ1 initAuth).response =
      respOkNoAgent := by
  exact ⟨rfl, rfl, rfl, rfl⟩

/-- Claim C6 (amended): when the packet JSON is malformed, the packet's
structure id is absent from the registry (for any parsed packet other than
the JSON value null), or decoding throws, the client falls back by
reissuing a request to the same URL with empty request options — dropping
the caller's original method, headers, and options entirely rather than
only removing the negotiation header — and returns that reissue's
response; a packet body parsing to JSON null instead makes the call throw
(core.ts line 60 dereferences packet.structureId outside any try), so no
fallback reissue happens and no response is returned. -/
theorem C6_fallback_reissue :
    (∀ (env : Env) (net : Request → Resp) (st : Registry) (url : String)
      (init : ReqInit), targetOk env url →
      ((net (firstRequest st url init)).status == 409 &&
        (hintFor st url init).isSome) = false →
      hHas (net (firstRequest st url init)).headers agentHdr = true →
      strContains
        ((hGet (net (firstRequest st url init)).headers "content-type").getD "")
        packetCt = true →
      (parseJson (net (firstRequest st url init)).body = none ∨
        (∃ pkt, parseJson (net (firstRequest st url init)).body = some pkt ∧
          isNullJson pkt = false ∧
          (getStrField pkt "structureId").bind (fun s => aGet st.structures s) = none) ∨
        (∃ pkt def_, parseJson (net (firstRequest st url init)).body = some pkt ∧
          (getStrField pkt "structureId").bind (fun s => aGet st.structures s) = some def_ ∧
          env.decode pkt def_ = none)) →
      (synpaticoFetch env net st url init).requests =
        [firstRequest st url init, reissueRequest url] ∧
      (synpaticoFetch env net st url init).response = net (reissueRequest url) ∧
      (reissueRequest url).init = emptyInit ∧
      (synpaticoFetch env net st url init).threw = false) ∧
    (∀ (env : Env) (net : Request → Resp) (st : Registry) (url : String)
      (init : ReqInit), targetOk env url →
      ((net (firstRequest st url init)).status == 409 &&
        (hintFor st url init).isSome) = false →
      hHas (net (firstRequest st url init)).headers agentHdr = true →
      strContains
        ((hGet (net (firstRequest st url init)).headers "content-type").getD "")
        packetCt = true →
      parseJson (net (firstRequest st url init)).body = some Json.null →
      (synpaticoFetch env net st url init).threw = true ∧
      (synpaticoFetch env net st url init).requests = [firstRequest st url init]) := by
  constructor
  · intro env net st url init ht hno hmk hpk hfail
    rw [fetch_eq_main env net st url init ht]
    rcases hfail with hparse | ⟨pkt, hp, hn, hu⟩ | ⟨pkt, def_, hp, hd, hf⟩
    · rw [main_packet env net st url init hno hmk hpk _ _ _
        (packet_parse_fail env net (markOrigin st url) _ url hparse)]
      exact ⟨rfl, rfl, rfl, rfl⟩
    · have hu' : (getStrField pkt "structureId").bind
          (fun s => aGet (markOrigin st url).structures s) = none := by
        rw [markOrigin_structures]
        exact hu
      rw [main_packet env net st url init hno hmk hpk _ _ _
        (packet_unknown env net (markOrigin st url) _ url pkt hp hn hu')]
      exact ⟨rfl, rfl, rfl, rfl⟩
    · have hd' : (getStrField pkt "structureId").bind
          (fun s => aGet (markOrigin st url).structures s) = some def_ := by
        rw [markOrigin_structures]
        exact hd
      rw [main_packet env net st url init hno hmk hpk _ _ _
        (packet_decode_fail env net (markOrigin st url) _ url pkt def_ hp hd' hf)]
      exact ⟨rfl, rfl, rfl, rfl⟩
  · intro env net st url init ht hno hmk hpk hp
    rw [fetch_eq_main env net st url init ht,
      main_packet_crash env net st url init hno hmk hpk
        (packet_null env net (markOrigin st url) _ url hp)]
    exact ⟨rfl, rfl⟩

theorem C6_witness :
    (synpaticoFetch envPlain netPacketAuth emptyRegistry urlQ1 initAuth).response =
      netPacketAuth (reissueRequest urlQ1) ∧
    (reissueRequest urlQ1).init = emptyInit ∧
    (synpaticoFetch envPlain netPacketAuth emptyRegistry urlQ1 initAuth).threw = false ∧
    parseJson respPacketNull.body = some Json.null ∧
    (synpaticoFetch envPlain netPacketNull emptyRegistry urlQ1 initEmpty).threw = true := by
  have ht : targetOk envPlain urlQ1 := by intro p hp; cases hp
  have h1 := C6_fallback_reissue.1 envPlain netPacketAuth emptyRegistry urlQ1 initAuth
    ht rfl rfl rfl
    (Or.inr (Or.inl ⟨Json.obj [("structureId", Json.str "ZZ"),
      ("values", Json.arr [Json.num 1])], rfl, rfl, rfl⟩))
  have h2 := C6_fallback_reissue.2 envPlain netPacketNull emptyRegistry urlQ1 initEmpty
    ht rfl rfl rfl rfl
  exact ⟨h1.2.1, h1.2.2.1, h1.2.2.2, rfl, h2.1⟩

/-- Claim C7 counterexample: a learning-phase parse failure is recovered
(the marked JSON response with an unparseable body is returned unmodified)
but the whole call emits no notification at all — in particular no onError
— so not every recovered error reaches the onError hook. -/
theorem C7_counterexample :
    parseJson respBadJson.body = none ∧
    hHas respBadJson.headers agentHdr = true ∧
    strContains ((hGet respBadJson.headers "content-type").getD "") jsonCt = true ∧
    (synpaticoFetch envPlain netBadJson emptyRegistry urlQ1 initEmpty).response =
      respBadJson ∧
    (synpaticoFetch envPlain netBadJson emptyRegistry urlQ1 initEmpty).events = [] := by
  exact ⟨rfl, rfl, rfl, rfl, rfl⟩

/-- Claim C7 (amended): malformed packet JSON and codec decode exceptions
are reported to onError tagged with phase decode (and request/response
hook exceptions with their phases), but URL-parsing failures and
learning-phase parse failures are recovered silently: a learn-path parse
failure leaves only hook-invocation events, with no onError notification
of its own. -/
theorem C7_error_reporting :
    (∀ (env : Env) (net : Request → Resp) (st : Registry) (url : String)
      (init : ReqInit), targetOk env url →
      ((net (firstRequest st url init)).status == 409 &&
        (hintFor st url init).isSome) = false →
      hHas (net (firstRequest st url init)).headers agentHdr = true →
      strContains
        ((hGet (net (firstRequest st url init)).headers "content-type").getD "")
        packetCt = true →
      parseJson (net (firstRequest st url init)).body = none →
      Ev.evError "decode" (some url) ∈ (synpaticoFetch env net st url init).events) ∧
    (∀ (env : Env) (net : Request → Resp) (st : Registry) (url : String)
      (init : ReqInit) (pkt : Json) (def_ : StructureDef), targetOk env url →
      ((net (firstRequest st url init)).status == 409 &&
        (hintFor st url init).isSome) = false →
      hHas (net (firstRequest st url init)).headers agentHdr = true →
      strContains
        ((hGet (net (firstRequest st url init)).headers "content-type").getD "")
        packetCt = true →
      parseJson (net (firstRequest st url init)).body = some pkt →
      (getStrField pkt "structureId").bind (fun s => aGet st.structures s) = some def_ →
      env.decode pkt def_ = none →
      Ev.evError "decode" (some url) ∈ (synpaticoFetch env net st url init).events) ∧
    (∀ (env : Env) (net : Request → Resp) (st : Registry) (url : String)
      (init : ReqInit), targetOk env url →
      ((net (firstRequest st url init)).status == 409 &&
        (hintFor st url init).isSome) = false →
      hHas (net (firstRequest st url init)).headers agentHdr = true →
      strContains
        ((hGet (net (firstRequest st url init)).headers "content-type").getD "")
        packetCt = false →
      strContains
        ((hGet (net (firstRequest st url init)).headers "content-type").getD "")
        jsonCt = true →
      parseJson (net (firstRequest st url init)).body = none →
      ∀ e, e ∈ (synpaticoFetch env net st url init).events → isHookEv e = true) := by
  refine ⟨?_, ?_, ?_⟩
  · intro env net st url init ht hno hmk hpk hparse
    rw [fetch_eq_main env net st url init ht,
      main_packet env net st url init hno hmk hpk _ _ _
        (packet_parse_fail env net (markOrigin st url) _ url hparse)]
    simp
  · intro env net st url init pkt def_ ht hno hmk hpk hp hd hf
    have hd' : (getStrField pkt "structureId").bind
        (fun s => aGet (markOrigin st url).structures s) = some def_ := by
      rw [markOrigin_structures]
      exact hd
    rw [fetch_eq_main env net st url init ht,
      main_packet env net st url init hno hmk hpk _ _ _
        (packet_decode_fail env net (markOrigin st url) _ url pkt def_ hp hd' hf)]
    simp
  · intro env net st url init ht hno hmk hpk hjs hparse
    rw [fetch_eq_main env net st url init ht,
      main_learn env net st url init hno hmk hpk hjs _ _ _
        (learn_parse_fail env (markOrigin st url) _ url hparse)]
    intro e he
    simp only [List.append_nil] at he
    rcases List.mem_append.mp he with h1 | h2
    · exact mem_preEvents_isHook _ _ _ _ _ h1
    · exact mem_postEvents_isHook _ _ _ _ h2

theorem C7_witness :
    parseJson respPacketBad.body = none ∧
    Ev.evError "decode" (some urlQ1) ∈
      (synpaticoFetch envPlain netPacketBad emptyRegistry urlQ1 initEmpty).events ∧
    Ev.evError "decode" (some urlQ1) ∈
      (synpaticoFetch envPlain netPacketS1 stHinted urlQ1 initEmpty).events ∧
    (∀ e, e ∈ (synpaticoFetch envPlain netBadJson emptyRegistry urlQ1
      initEmpty).events → isHookEv e = true) := by
  have ht : targetOk envPlain urlQ1 := by intro p hp; cases hp
  refine ⟨rfl, ?_, ?_, ?_⟩
  · exact C7_error_reporting.1 envPlain netPacketBad emptyRegistry urlQ1 initEmpty
      ht rfl rfl rfl rfl
  · exact C7_error_reporting.2.1 envPlain netPacketS1 stHinted urlQ1 initEmpty
      (Json.obj [("structureId", Json.str "S1"), ("values", Json.arr [Json.num 2])])
      { id := "S1", src := Json.obj [("a", Json.num 1)] } ht rfl rfl rfl rfl rfl rfl
  · exact C7_error_reporting.2.2 envPlain netBadJson emptyRegistry urlQ1 initEmpty
      ht rfl rfl rfl rfl rfl

/-- Claim C10: on both the learn and decode paths the client returns a
newly constructed response: status and statusText are the original ones,
every header other than Content-Type is carried over from the original
response's header map, Content-Type is forced to application/json, and the
body is the JSON re-serialization of the (possibly transformed) value —
so the original raw body bytes are not preserved whenever they differ from
that re-serialization, even if the value itself is unchanged. -/
theorem C10_reserialized_response :
    (∀ (env : Env) (net : Request → Resp) (st : Registry) (url : String)
      (init : ReqInit) (j : Json), targetOk env url →
      ((net (firstRequest st url init)).status == 409 &&
        (hintFor st url init).isSome) = false →
      hHas (net (firstRequest st url init)).headers agentHdr = true →
      strContains
        ((hGet (net (firstRequest st url init)).headers "content-type").getD "")
        packetCt = false →
      strContains
        ((hGet (net (firstRequest st url init)).headers "content-type").getD "")
        jsonCt = true →
      parseJson (net (firstRequest st url init)).body = some j →
      isPlainObject j = true →
      (synpaticoFetch env net st url init).response.status =
        (net (firstRequest st url init)).status ∧
      (synpaticoFetch env net st url init).response.statusText =
        (net (firstRequest st url init)).statusText ∧
      hGet (synpaticoFetch env net st url init).response.headers "Content-Type" =
        some jsonCt ∧
      (∀ k, lowerStr k ≠ "content-type" →
        hGet (synpaticoFetch env net st url init).response.headers k =
          hGet (hNorm (net (firstRequest st url init)).headers) k) ∧
      (synpaticoFetch env net st url init).response.body =
        stringify (learnOut env url j) ∧
      ((net (firstRequest st url init)).body ≠ stringify (learnOut env url j) →
        (synpaticoFetch env net st url init).response.body ≠
          (net (firstRequest st url init)).body)) ∧
    (∀ (env : Env) (net : Request → Resp) (st : Registry) (url : String)
      (init : ReqInit) (pkt : Json) (def_ : StructureDef) (dec : Json),
      targetOk env url →
      ((net (firstRequest st url init)).status == 409 &&
        (hintFor st url init).isSome) = false →
      hHas (net (firstRequest st url init)).headers agentHdr = true →
      strContains
        ((hGet (net (firstRequest st url init)).headers "content-type").getD "")
        packetCt = true →
      parseJson (net (firstRequest st url init)).body = some pkt →
      (getStrField pkt "structureId").bind (fun s => aGet st.structures s) = some def_ →
      env.decode pkt def_ = some dec →
      (synpaticoFetch env net st url init).response.status =
        (net (firstRequest st url init)).status ∧
      (synpaticoFetch env net st url init).response.statusText =
        (net (firstRequest st url init)).statusText ∧
      hGet (synpaticoFetch env net st url init).response.headers "Content-Type" =
        some jsonCt ∧
      (∀ k, lowerStr k ≠ "content-type" →
        hGet (synpaticoFetch env net st url init).response.headers k =
          hGet (hNorm (net (firstRequest st url init)).headers) k) ∧
      (synpaticoFetch env net st url init).response.body =
        stringify (packetOut env url def_.id dec) ∧
      ((net (firstRequest st url init)).body ≠ stringify (packetOut env url def_.id dec) →
        (synpaticoFetch env net st url init).response.body ≠
          (net (firstRequest st url init)).body)) := by
  constructor
  · intro env net st url init j ht hno hmk hpk hjs hb ho
    rw [fetch_eq_main env net st url init ht,
      main_learn env net st url init hno hmk hpk hjs _ _ _
        (learn_obj env (markOrigin st url) (net (firstRequest st url init)) url j hb ho)]
    refine ⟨rfl, rfl, hGet_hSet_self _ _ _, ?_, rfl, ?_⟩
    · intro k hk
      show hGet (hSet (hNorm (net (firstRequest st url init)).headers)
        "Content-Type" jsonCt) k = _
      rw [hGet_hSet_ne]
      rw [lower_ct]
      exact hk
    · intro hne h
      exact hne h.symm
  · intro env net st url init pkt def_ dec ht hno hmk hpk hp hd hf
    have hd' : (getStrField pkt "structureId").bind
        (fun s => aGet (markOrigin st url).structures s) = some def_ := by
      rw [markOrigin_structures]
      exact hd
    rw [fetch_eq_main env net st url init ht,
      main_packet env net st url init hno hmk hpk _ _ _
        (packet_ok env net (markOrigin st url) _ url pkt def_ dec hp hd' hf)]
    refine ⟨rfl, rfl, hGet_hSet_self _ _ _, ?_, rfl, ?_⟩
    · intro k hk
      show hGet (hSet (hNorm (net (firstRequest st url init)).headers)
        "Content-Type" jsonCt) k = _
      rw [hGet_hSet_ne]
      rw [lower_ct]
      exact hk
    · intro hne h
      exact hne h.symm

/-- Claim C8: every bucket of the usage worker holds at most
MAX_PATHS_PER_BUCKET (5000) entries at all times; a path that is new to a
saturated bucket is dropped without error, and processing of a message's
remaining paths continues past a dropped one. -/
theorem C8_bucket_cap :
    (∀ (msgs : List TelemetryMsg) (key : String) (b : List (String × Nat)),
      aGet (handleMsgs msgs) key = some b → b.length ≤ MAX_PATHS_PER_BUCKET) ∧
    (∀ (bucket : List (String × Nat)) (p : String),
      aHas bucket p = false → MAX_PATHS_PER_BUCKET ≤ bucket.length →
      addPath bucket p = bucket) ∧
    (∀ (bucket : List (String × Nat)) (p : String) (ps : List String),
      addPaths bucket (p :: ps) = addPaths (addPath bucket p) ps) := by
  refine ⟨?_, ?_, ?_⟩
  · intro msgs key b hb
    exact foldl_handleMsg_bounded msgs []
      (fun k bb hk => by simp [aGet] at hk) key b hb
  · intro bucket p h1 h2
    unfold addPath
    rw [h1, decide_eq_true h2]
    rfl
  · intro bucket p ps
    rfl

theorem C8_witness :
    aGet (handleMsgs msgsSmall) (bucketKey "s" "e") = some [("a", 2), ("b", 1)] ∧
    ([("a", (2 : Nat)), ("b", 1)]).length ≤ MAX_PATHS_PER_BUCKET ∧
    aHas satBucket "x" = false ∧
    MAX_PATHS_PER_BUCKET ≤ satBucket.length ∧
    addPath satBucket "x" = satBucket ∧
    addPaths satBucket ("x" :: ["y"]) = addPaths (addPath satBucket "x") ["y"] := by
  refine ⟨rfl, ?_, satBucket_not_has, satBucket_len, ?_, ?_⟩
  · exact C8_bucket_cap.1 msgsSmall (bucketKey "s" "e") [("a", 2), ("b", 1)] rfl
  · exact C8_bucket_cap.2.1 satBucket "x" satBucket_not_has satBucket_len
  · exact C8_bucket_cap.2.2 satBucket "x" ["y"]

/-- Claim C9: the tracking proxy never recurses past maxDepth (the factory
returns targets past the budget unwrapped, and every value reachable by a
read chain from a fresh wrap is depth-bounded), reads of excluded property
names pass through with no access event and no wrapping, and the opaque
built-ins (Date, RegExp, Error) are never wrapped, whether wrapped
directly or reached as a property value. -/
theorem C9_proxy_limits :
    (∀ (rootPath : Option String) (v : JsVal) (opts : ProxyOptions)
      (path : String) (d : Nat), opts.maxDepth < d →
      createTrackingProxy rootPath v opts path d = Tracked.raw v) ∧
    (∀ (opts : ProxyOptions) (rootPath : Option String) (v : JsVal)
      (chain : List String),
      depthBounded opts.maxDepth
        (readChain opts rootPath (createTrackingProxy rootPath v opts "" 0) chain).2) ∧
    (∀ (opts : ProxyOptions) (rootPath : Option String) (v : JsVal)
      (fp : String) (d : Nat) (prop : String),
      opts.excludePaths.contains prop = true →
      getStep opts rootPath (Tracked.proxied v fp d) prop =
        ([], Tracked.raw (jsGet v prop))) ∧
    (∀ (rootPath : Option String) (v : JsVal) (opts : ProxyOptions)
      (path : String) (d : Nat),
      v = JsVal.vdate ∨ v = JsVal.vregexp ∨ v = JsVal.verror →
      createTrackingProxy rootPath v opts path d = Tracked.raw v) ∧
    (∀ (opts : ProxyOptions) (rootPath : Option String) (v : JsVal)
      (fp : String) (d : Nat) (prop : String),
      jsGet v prop = JsVal.vdate ∨ jsGet v prop = JsVal.vregexp ∨
        jsGet v prop = JsVal.verror →
      (getStep opts rootPath (Tracked.proxied v fp d) prop).2 =
        Tracked.raw (jsGet v prop)) := by
  refine ⟨?_, ?_, ?_, ?_, ?_⟩
  · intro rootPath v opts path d h
    unfold createTrackingProxy
    rw [if_pos h]
  · intro opts rootPath v chain
    exact readChain_depthBounded opts rootPath chain _
      (ctp_depthBounded rootPath v opts "" 0)
  · intro opts rootPath v fp d prop h
    simp only [getStep, h, if_true]
  · intro rootPath v opts path d h
    rcases h with rfl | rfl | rfl <;>
      · unfold createTrackingProxy
        by_cases hd : opts.maxDepth < d
        · rw [if_pos hd]
        · rw [if_neg hd]
  · intro opts rootPath v fp d prop h
    by_cases hx : opts.excludePaths.contains prop = true
    · simp only [getStep, hx, if_true]
    · have hx' : opts.excludePaths.contains prop = false := by
        revert hx; cases opts.excludePaths.contains prop <;> simp
      rcases h with hv | hv | hv <;>
        simp only [getStep, hx', Bool.false_eq_true, if_false, hv]

theorem C9_witness :
    DEFAULT_OPTIONS.maxDepth < 11 ∧
    createTrackingProxy none (JsVal.obj [("a", JsVal.prim "number")])
      DEFAULT_OPTIONS "" 11 =
      Tracked.raw (JsVal.obj [("a", JsVal.prim "number")]) ∧
    DEFAULT_OPTIONS.excludePaths.contains "constructor" = true ∧
    getStep DEFAULT_OPTIONS none
      (Tracked.proxied (JsVal.obj [("a", JsVal.prim "number")]) "" 0) "constructor" =
      ([], Tracked.raw (jsGet (JsVal.obj [("a", JsVal.prim "number")]) "constructor")) ∧
    createTrackingProxy none JsVal.vdate DEFAULT_OPTIONS "" 0 =
      Tracked.raw JsVal.vdate ∧
    (getStep DEFAULT_OPTIONS none
      (Tracked.proxied (JsVal.obj [("d", JsVal.vdate)]) "" 0) "d").2 =
      Tracked.raw (jsGet (JsVal.obj [("d", JsVal.vdate)]) "d") := by
  refine ⟨by decide, ?_, by decide, ?_, ?_, ?_⟩
  · exact C9_proxy_limits.1 none _ DEFAULT_OPTIONS "" 11 (by decide)
  · exact C9_proxy_limits.2.2.1 DEFAULT_OPTIONS none _ "" 0 "constructor" (by decide)
  · exact C9_proxy_limits.2.2.2.1 none JsVal.vdate DEFAULT_OPTIONS "" 0 (Or.inl rfl)
  · exact C9_proxy_limits.2.2.2.2 DEFAULT_OPTIONS none _ "" 0 "d" (Or.inl rfl)

theorem C10_witness :
    (netLearn (firstRequest emptyRegistry urlQ1 initEmpty)).body ≠
      stringify (learnOut envPlain urlQ1 (Json.obj [("a", Json.num 1)])) ∧
    (synpaticoFetch envPlain netLearn emptyRegistry urlQ1 initEmpty).response.body ≠
      respLearnA.body ∧
    hGet (synpaticoFetch envPlain netLearn emptyRegistry urlQ1
      initEmpty).response.headers "Content-Type" = some jsonCt ∧
    (synpaticoFetch envDecodeId netPacketS1 stHinted urlQ1 initEmpty).response.body =
      stringify (packetOut envDecodeId urlQ1 "S1"
        (Json.obj [("a", Json.num 1)])) := by
  have ht : targetOk envPlain urlQ1 := by intro p hp; cases hp
  have ht2 : targetOk envDecodeId urlQ1 := by intro p hp; cases hp
  have hraw : (netLearn (firstRequest emptyRegistry urlQ1 initEmpty)).body ≠
      stringify (learnOut envPlain urlQ1 (Json.obj [("a", Json.num 1)])) := by decide
  have h1 := C10_reserialized_response.1 envPlain netLearn emptyRegistry urlQ1
    initEmpty (Json.obj [("a", Json.num 1)]) ht rfl rfl rfl rfl rfl rfl
  have h2 := C10_reserialized_response.2 envDecodeId netPacketS1 stHinted urlQ1
    initEmpty (Json.obj [("structureId", Json.str "S1"), ("values", Json.arr [Json.num 2])])
    { id := "S1", src := Json.obj [("a", Json.num 1)] }
    (Json.obj [("a", Json.num 1)]) ht2 rfl rfl rfl rfl rfl rfl
  exact ⟨hraw, h1.2.2.2.2.2 hraw, h1.2.2.1, h2.2.2.2.2.1⟩

end Synpatico
